import Mathlib

/-!
# Verification of the BucketTree header (`fssystem_bucket_tree.hpp`)

A shallow embedding of the `ams::fssystem::BucketTree` declarations found in
`libraries/libstratosphere/include/stratosphere/fssystem/fssystem_bucket_tree.hpp`,
together with theorems settling the specification claims about it.

Conventions:
* `size_t` quantities (node sizes, entry sizes, read sizes) are `Nat`;
* `s32`/`s64` quantities that can be negative (virtual offsets, skip counts,
  pointer-free cursor state) are `Int`;
* `AMS_ABORT_UNLESS` is modelled by returning `Option` (`none` = the abort fires);
* quantities that the code's asserted preconditions force to be non-negative
  (`entry_count ≥ 0`) are modelled as `Nat`.
-/

namespace BucketTreeVerify

/-! ## Static geometry helpers (source: `BucketTree` private statics) -/

/-- `util::DivideUp(a, b) = (a + b - 1) / b`, on the non-negative values the
tree geometry uses. -/
def divideUp (a b : Nat) : Nat := (a + b - 1) / b

/-- `BucketTree::NodeSizeMin = 1_KB`. -/
def NodeSizeMin : Nat := 1024

/-- `BucketTree::NodeSizeMax = 512_KB`. -/
def NodeSizeMax : Nat := 512 * 1024

/-- `util::IsPowerOfTwo` on an unsigned value: non-zero and `v & (v - 1) == 0`. -/
def isPowerOfTwo (n : Nat) : Bool := n != 0 && n &&& (n - 1) == 0

/-- `sizeof(BucketTree::NodeHeader)` (static-asserted to be 0x10). -/
def nodeHeaderSize : Nat := 16

/-- `BucketTree::GetEntryCount(node_size, entry_size)`:
`(node_size - sizeof(NodeHeader)) / entry_size`. -/
def GetEntryCount (node_size entry_size : Nat) : Nat :=
  (node_size - nodeHeaderSize) / entry_size

/-- `BucketTree::GetOffsetCount(node_size)`:
`(node_size - sizeof(NodeHeader)) / sizeof(s64)`. -/
def GetOffsetCount (node_size : Nat) : Nat :=
  (node_size - nodeHeaderSize) / 8

/-- `BucketTree::GetEntrySetCount`: `DivideUp(entry_count, entry_count_per_node)`. -/
def GetEntrySetCount (node_size entry_size entry_count : Nat) : Nat :=
  divideUp entry_count (GetEntryCount node_size entry_size)

/-- `BucketTree::GetNodeL2Count`.  The `AMS_ABORT_UNLESS(node_l2_count <=
offset_count_per_node)` in the source is modelled by returning `none` when the
guard fails. -/
def GetNodeL2Count (node_size entry_size entry_count : Nat) : Option Nat :=
  let offset_count_per_node := GetOffsetCount node_size
  let entry_set_count := GetEntrySetCount node_size entry_size entry_count
  if entry_set_count ≤ offset_count_per_node then
    some 0
  else
    let node_l2_count := divideUp entry_set_count offset_count_per_node
    if node_l2_count ≤ offset_count_per_node then
      some (divideUp (entry_set_count - (offset_count_per_node - (node_l2_count - 1)))
              offset_count_per_node)
    else
      none

/-- `BucketTree::QueryHeaderStorageSize() = sizeof(Header)`. -/
def QueryHeaderStorageSize : Nat := 16

/-- `BucketTree::QueryNodeStorageSize`: `0` when `entry_count <= 0`, otherwise
`(1 + GetNodeL2Count(...)) * node_size`; `none` when the abort inside
`GetNodeL2Count` fires. -/
def QueryNodeStorageSize (node_size entry_size entry_count : Nat) : Option Nat :=
  if entry_count = 0 then some 0
  else (GetNodeL2Count node_size entry_size entry_count).map
    (fun l2 => (1 + l2) * node_size)

/-- `BucketTree::QueryEntryStorageSize`: `0` when `entry_count <= 0`, otherwise
`GetEntrySetCount(...) * node_size`. -/
def QueryEntryStorageSize (node_size entry_size entry_count : Nat) : Nat :=
  if entry_count = 0 then 0
  else GetEntrySetCount node_size entry_size entry_count * node_size

/-- The `has_l2` predicate as `Initialize` derives it (`IsExistL2`:
`m_offset_count < m_entry_set_count` with both fields set from the geometry). -/
def hasL2 (node_size entry_size entry_count : Nat) : Bool :=
  decide (GetOffsetCount node_size < GetEntrySetCount node_size entry_size entry_count)

/-! ## Spec-side ceiling division

The specification writes its geometry formulas with mathematical ceilings
`⌈x / y⌉`.  `specCeilDiv` renders that independently of the source's
`DivideUp`, so that the storage-size claims compare the two. -/

/-- Ceiling division as the spec writes it: `⌈a / b⌉`. -/
def specCeilDiv (a b : Nat) : Nat :=
  if a % b = 0 then a / b else a / b + 1

theorem divideUp_eq_specCeilDiv (a b : Nat) (hb : 0 < b) :
    divideUp a b = specCeilDiv a b := by
  unfold divideUp specCeilDiv
  cases a with
  | zero =>
    have h0 : (b - 1) / b = 0 := Nat.div_eq_of_lt (by omega)
    simp [h0]
  | succ k =>
    have h1 : k + 1 + b - 1 = k + b := by omega
    rw [h1, Nat.add_div_right _ hb, Nat.succ_div]
    by_cases hdvd : b ∣ k + 1
    · have hmod : (k + 1) % b = 0 := Nat.dvd_iff_mod_eq_zero.mp hdvd
      simp [hmod, hdvd]
    · have hmod : ¬ (k + 1) % b = 0 := fun h =>
        hdvd (Nat.dvd_iff_mod_eq_zero.mpr h)
      simp [hmod, hdvd]

/-- The spec's `node_l2_count` formula, written with the spec's ceilings:
`0` when `entry_set_count ≤ offset_count_per_node`, otherwise
`⌈(entry_set_count - (offset_count_per_node - (k-1))) / offset_count_per_node⌉`
with `k = ⌈entry_set_count / offset_count_per_node⌉`. -/
def nodeL2CountSpec (node_size entry_size entry_count : Nat) : Nat :=
  let ocpn := (node_size - 16) / 8
  let esc := specCeilDiv entry_count ((node_size - 16) / entry_size)
  if esc ≤ ocpn then 0
  else specCeilDiv (esc - (ocpn - (specCeilDiv esc ocpn - 1))) ocpn

theorem GetOffsetCount_pos (ns es : Nat) (h1 : 8 ≤ es) (h2 : es + 16 ≤ ns) :
    0 < GetOffsetCount ns := by
  have h : (8 : Nat) ≤ ns - 16 := by omega
  simpa [GetOffsetCount, nodeHeaderSize] using
    (Nat.le_div_iff_mul_le (by norm_num)).mpr (by omega : 1 * 8 ≤ ns - 16)

theorem GetEntryCount_pos (ns es : Nat) (h1 : 8 ≤ es) (h2 : es + 16 ≤ ns) :
    0 < GetEntryCount ns es := by
  have hes : 0 < es := by omega
  simpa [GetEntryCount, nodeHeaderSize] using
    (Nat.le_div_iff_mul_le hes).mpr (by omega : 1 * es ≤ ns - 16)

theorem GetEntrySetCount_eq_spec (ns es ec : Nat) (h1 : 8 ≤ es) (h2 : es + 16 ≤ ns) :
    GetEntrySetCount ns es ec = specCeilDiv ec ((ns - 16) / es) := by
  have hpos := GetEntryCount_pos ns es h1 h2
  unfold GetEntrySetCount
  rw [divideUp_eq_specCeilDiv _ _ hpos]
  simp [GetEntryCount, nodeHeaderSize]

theorem GetOffsetCount_eq (ns : Nat) : GetOffsetCount ns = (ns - 16) / 8 := by
  simp [GetOffsetCount, nodeHeaderSize]

/-- C2 (amended): `QueryHeaderStorageSize` is 16; both storage sizes are 0 for
`entry_count = 0`; for positive `entry_count` the entry-storage size is
`entry_set_count * node_size`, and — provided the `AMS_ABORT_UNLESS` guard
`⌈entry_set_count / offset_count_per_node⌉ ≤ offset_count_per_node` holds —
the node-storage size is `(1 + node_l2_count) * node_size` with the spec's
`node_l2_count` formula. -/
theorem query_storage_sizes_spec (ns es ec : Nat)
    (h1 : 8 ≤ es) (h2 : es + 16 ≤ ns)
    (h3 : NodeSizeMin ≤ ns) (h4 : ns ≤ NodeSizeMax) (h5 : isPowerOfTwo ns = true) :
    QueryHeaderStorageSize = 16 ∧
    (ec = 0 → QueryNodeStorageSize ns es ec = some 0 ∧ QueryEntryStorageSize ns es ec = 0) ∧
    (0 < ec →
      QueryEntryStorageSize ns es ec = specCeilDiv ec ((ns - 16) / es) * ns) ∧
    (0 < ec →
      specCeilDiv (specCeilDiv ec ((ns - 16) / es)) ((ns - 16) / 8) ≤ (ns - 16) / 8 →
      QueryNodeStorageSize ns es ec = some ((1 + nodeL2CountSpec ns es ec) * ns)) := by
  have hocpn := GetOffsetCount_pos ns es h1 h2
  have hesc := GetEntrySetCount_eq_spec ns es ec h1 h2
  have hoeq := GetOffsetCount_eq ns
  refine ⟨rfl, ?_, ?_, ?_⟩
  · rintro rfl
    constructor
    · simp [QueryNodeStorageSize]
    · simp [QueryEntryStorageSize]
  · intro hpos
    rw [QueryEntryStorageSize, if_neg (by omega), hesc]
  · intro hpos habort
    rw [QueryNodeStorageSize, if_neg (by omega)]
    rw [GetNodeL2Count]
    simp only [← hoeq, ← hesc] at habort ⊢
    rw [nodeL2CountSpec]
    simp only [← hoeq, ← hesc]
    by_cases hle : GetEntrySetCount ns es ec ≤ GetOffsetCount ns
    · rw [if_pos hle, if_pos hle]
      rfl
    · rw [if_neg hle, if_neg hle]
      rw [divideUp_eq_specCeilDiv _ _ hocpn]
      rw [if_pos habort]
      rw [divideUp_eq_specCeilDiv _ _ hocpn]
      rfl

/-- C2 witness at `(node_size, entry_size, entry_count) = (1024, 16, 10000)`. -/
theorem query_storage_sizes_spec_witness :
    QueryNodeStorageSize 1024 16 10000 = some 2048 ∧
    QueryEntryStorageSize 1024 16 10000 = 162816 := by
  have h := query_storage_sizes_spec 1024 16 10000 (by decide) (by decide)
    (by decide) (by decide) (by decide)
  constructor
  · have hnode := h.2.2.2 (by decide) (by decide)
    rw [hnode]
    decide
  · have hentry := h.2.2.1 (by decide)
    rw [hentry]
    decide

/-- C2 counterexample: at `(1024, 1008, 20000)` every precondition of the claim
holds and `entry_count > 0`, yet `QueryNodeStorageSize` does not return a value
at all — the `AMS_ABORT_UNLESS` inside `GetNodeL2Count` fires. -/
theorem query_node_storage_abort :
    (8 ≤ 1008 ∧ 1008 + 16 ≤ 1024 ∧ NodeSizeMin ≤ 1024 ∧ 1024 ≤ NodeSizeMax ∧
      isPowerOfTwo 1024 = true ∧ 0 < 20000) ∧
    QueryNodeStorageSize 1024 1008 20000 = none := by decide

/-- C3 counterexample: with `node_size = 1024` the code's
`offset_count_per_node` is `(1024 - 16) / 8 = 126`, not 63, and the L2 node
count at `(1024, 16, 10000)` is 1, not 3. -/
theorem geometry_example_counterexample :
    ¬(GetEntrySetCount 1024 16 10000 = 159 ∧ GetOffsetCount 1024 = 63 ∧
      hasL2 1024 16 10000 = true ∧ GetNodeL2Count 1024 16 10000 = some 3) := by decide

/-- C3 (amended): with `node_size = 1024`, `entry_size = 16`,
`entry_count = 10000` the derived geometry is `entry_set_count = 159`,
`offset_count_per_node = 126`, `has_l2 = true`, and one L2 node. -/
theorem geometry_example :
    GetEntrySetCount 1024 16 10000 = 159 ∧ GetOffsetCount 1024 = 126 ∧
    hasL2 1024 16 10000 = true ∧ GetNodeL2Count 1024 16 10000 = some 1 := by decide

/-- C4 counterexample: at `(1024, 1008, 20000)` all asserted preconditions
hold and `entry_set_count > offset_count_per_node`, yet
`k = DivideUp(entry_set_count, offset_count_per_node) = 159 > 126 =
offset_count_per_node`: the abort branch of `GetNodeL2Count` is reachable. -/
theorem nodeL2_abort_reachable :
    (8 ≤ 1008 ∧ 1008 + 16 ≤ 1024 ∧ NodeSizeMin ≤ 1024 ∧ 1024 ≤ NodeSizeMax ∧
      isPowerOfTwo 1024 = true ∧
      GetOffsetCount 1024 < GetEntrySetCount 1024 1008 20000) ∧
    GetOffsetCount 1024 < divideUp (GetEntrySetCount 1024 1008 20000) (GetOffsetCount 1024) ∧
    GetNodeL2Count 1024 1008 20000 = none := by decide

/-- C4 (amended): under the asserted preconditions and the additional bound
`entry_set_count ≤ offset_count_per_node²`, the guard
`k = DivideUp(entry_set_count, offset_count_per_node) ≤ offset_count_per_node`
holds and the abort inside `GetNodeL2Count` does not fire. -/
theorem nodeL2_abort_guard (ns es ec : Nat)
    (h1 : 8 ≤ es) (h2 : es + 16 ≤ ns)
    (h3 : NodeSizeMin ≤ ns) (h4 : ns ≤ NodeSizeMax) (h5 : isPowerOfTwo ns = true)
    (hl2 : GetOffsetCount ns < GetEntrySetCount ns es ec)
    (hsq : GetEntrySetCount ns es ec ≤ GetOffsetCount ns * GetOffsetCount ns) :
    divideUp (GetEntrySetCount ns es ec) (GetOffsetCount ns) ≤ GetOffsetCount ns ∧
    GetNodeL2Count ns es ec ≠ none := by
  have hO : 0 < GetOffsetCount ns := GetOffsetCount_pos ns es h1 h2
  have hbound : divideUp (GetEntrySetCount ns es ec) (GetOffsetCount ns) ≤ GetOffsetCount ns := by
    unfold divideUp
    calc (GetEntrySetCount ns es ec + GetOffsetCount ns - 1) / GetOffsetCount ns
        ≤ (GetOffsetCount ns * GetOffsetCount ns + (GetOffsetCount ns - 1)) / GetOffsetCount ns :=
          Nat.div_le_div_right (by omega)
      _ = GetOffsetCount ns + (GetOffsetCount ns - 1) / GetOffsetCount ns :=
          Nat.mul_add_div hO _ _
      _ = GetOffsetCount ns := by
          rw [Nat.div_eq_of_lt (by omega), Nat.add_zero]
  refine ⟨hbound, ?_⟩
  rw [GetNodeL2Count]
  simp only [if_neg (Nat.not_le.mpr hl2), if_pos hbound]
  exact Option.some_ne_none _

/-- C4 witness at `(1024, 1008, 500)`: `entry_set_count = 500 > 126` yet
`500 ≤ 126²`, so the guard holds. -/
theorem nodeL2_abort_guard_witness :
    divideUp (GetEntrySetCount 1024 1008 500) (GetOffsetCount 1024) ≤ GetOffsetCount 1024 ∧
    GetNodeL2Count 1024 1008 500 ≠ none :=
  nodeL2_abort_guard 1024 1008 500 (by decide) (by decide) (by decide) (by decide)
    (by decide) (by decide) (by decide)

/-! ## `BucketTree::ContinuousReadingInfo` -/

/-- The three private fields of `ContinuousReadingInfo`:
`size_t m_read_size; s32 m_skip_count; bool m_done;`. -/
structure ContinuousReadingInfo where
  read_size : Nat
  skip_count : Int
  done : Bool
  deriving DecidableEq, Repr

/-- `Reset()`: `m_read_size = 0; m_skip_count = 0; m_done = false;`. -/
def ContinuousReadingInfo.Reset (_ : ContinuousReadingInfo) : ContinuousReadingInfo :=
  ⟨0, 0, false⟩

/-- `SetSkipCount(count)`: stores `count` (asserted non-negative). -/
def ContinuousReadingInfo.SetSkipCount (i : ContinuousReadingInfo) (count : Int) :
    ContinuousReadingInfo :=
  { i with skip_count := count }

/-- `CheckNeedScan()`: `return (--m_skip_count) <= 0;` — the returned flag and
the updated state. -/
def ContinuousReadingInfo.CheckNeedScan (i : ContinuousReadingInfo) :
    Bool × ContinuousReadingInfo :=
  (decide (i.skip_count - 1 ≤ 0), { i with skip_count := i.skip_count - 1 })

/-- `Done()`: `m_read_size = 0; m_done = true;`. -/
def ContinuousReadingInfo.Done (i : ContinuousReadingInfo) : ContinuousReadingInfo :=
  { i with read_size := 0, done := true }

/-- `CanDo()`: `return m_read_size > 0;`. -/
def ContinuousReadingInfo.CanDo (i : ContinuousReadingInfo) : Bool :=
  decide (0 < i.read_size)

/-- C5: semantics of the `ContinuousReadingInfo` helpers: `Reset` zeroes all
fields; `SetSkipCount n` (for `n ≥ 0`) stores exactly `n`; `CheckNeedScan`
decrements the skip count by one and returns true iff the decremented value is
`≤ 0`; `Done` zeroes `read_size` and sets the done flag; `CanDo` holds iff
`read_size > 0`. -/
theorem continuousReadingInfo_spec (i : ContinuousReadingInfo) (n : Int) (hn : 0 ≤ n) :
    i.Reset = ⟨0, 0, false⟩ ∧
    ((i.SetSkipCount n).skip_count = n ∧ (i.SetSkipCount n).read_size = i.read_size ∧
      (i.SetSkipCount n).done = i.done) ∧
    (i.CheckNeedScan.2.skip_count = i.skip_count - 1 ∧
      (i.CheckNeedScan.1 = true ↔ i.skip_count - 1 ≤ 0) ∧
      i.CheckNeedScan.2.read_size = i.read_size ∧ i.CheckNeedScan.2.done = i.done) ∧
    (i.Done.read_size = 0 ∧ i.Done.done = true ∧ i.Done.skip_count = i.skip_count) ∧
    (i.CanDo = true ↔ 0 < i.read_size) := by
  refine ⟨rfl, ⟨rfl, rfl, rfl⟩, ⟨rfl, ?_, rfl, rfl⟩, ⟨rfl, rfl, rfl⟩, ?_⟩
  · exact decide_eq_true_iff
  · exact decide_eq_true_iff

/-- C5 witness at the state `⟨5, 3, false⟩` and skip count 2. -/
theorem continuousReadingInfo_spec_witness :
    (ContinuousReadingInfo.mk 5 3 false).Reset = ⟨0, 0, false⟩ ∧
    ((ContinuousReadingInfo.mk 5 3 false).SetSkipCount 2).skip_count = 2 ∧
    (ContinuousReadingInfo.mk 5 3 false).CheckNeedScan.2.skip_count = 2 ∧
    (ContinuousReadingInfo.mk 5 3 false).CanDo = true := by
  have h := continuousReadingInfo_spec ⟨5, 3, false⟩ 2 (by decide)
  exact ⟨h.1, h.2.1.1, by rw [h.2.2.1.1]; decide, h.2.2.2.2.mpr (by decide)⟩

/-! ## `BucketTree` object state

The data members set by the constructor at line 219 of the header
(`m_node_size`, `m_entry_size`, `m_entry_count`, `m_offset_count`,
`m_entry_set_count`, `m_start_offset`, `m_end_offset`), plus the `count`
field of the cached L1 node header (`m_node_l1->count`), which
`IsExistOffsetL2OnL1` and `GetEntrySetIndex` read. -/
structure BucketTreeState where
  node_size : Nat
  entry_size : Nat
  entry_count : Int
  offset_count : Int
  entry_set_count : Int
  start_offset : Int
  end_offset : Int
  l1_count : Int
  deriving DecidableEq, Repr

/-- The default-constructed `BucketTree()`: every member value-initialized. -/
def BucketTreeState.default : BucketTreeState := ⟨0, 0, 0, 0, 0, 0, 0, 0⟩

/-- `IsInitialized()`: `return m_node_size > 0;`. -/
def BucketTreeState.IsInitialized (t : BucketTreeState) : Bool :=
  decide (0 < t.node_size)

/-- `IsEmpty()`: `return m_entry_size == 0;`. -/
def BucketTreeState.IsEmpty (t : BucketTreeState) : Bool :=
  decide (t.entry_size = 0)

/-- `Includes(s64 offset)`:
`return m_start_offset <= offset && offset < m_end_offset;`. -/
def BucketTreeState.Includes1 (t : BucketTreeState) (offset : Int) : Bool :=
  decide (t.start_offset ≤ offset) && decide (offset < t.end_offset)

/-- `Includes(s64 offset, s64 size)`:
`return size > 0 && m_start_offset <= offset && size <= m_end_offset - offset;`. -/
def BucketTreeState.Includes2 (t : BucketTreeState) (offset size : Int) : Bool :=
  decide (0 < size) && decide (t.start_offset ≤ offset) &&
    decide (size ≤ t.end_offset - offset)

/-- `IsExistL2()`: `return m_offset_count < m_entry_set_count;`. -/
def BucketTreeState.IsExistL2 (t : BucketTreeState) : Bool :=
  decide (t.offset_count < t.entry_set_count)

/-- `IsExistOffsetL2OnL1()`:
`return this->IsExistL2() && m_node_l1->count < m_offset_count;`. -/
def BucketTreeState.IsExistOffsetL2OnL1 (t : BucketTreeState) : Bool :=
  t.IsExistL2 && decide (t.l1_count < t.offset_count)

/-- `GetEntrySetIndex(node_index, offset_index)`:
`(m_offset_count - m_node_l1->count) + (m_offset_count * node_index) + offset_index`. -/
def BucketTreeState.GetEntrySetIndex (t : BucketTreeState) (node_index offset_index : Int) :
    Int :=
  (t.offset_count - t.l1_count) + t.offset_count * node_index + offset_index

/-- C9: `Includes(offset, size)` holds iff `size > 0`, `start_offset ≤ offset`
and `size ≤ end_offset - offset`; in particular it is false for `size = 0` at
every offset, even offsets a `Includes(offset)` accepts. -/
theorem includes_size_spec :
    (∀ (t : BucketTreeState) (offset size : Int),
      t.Includes2 offset size = true ↔
        (0 < size ∧ t.start_offset ≤ offset ∧ size ≤ t.end_offset - offset)) ∧
    (∀ (t : BucketTreeState) (offset : Int),
      t.Includes2 offset 0 = false ∧
      (t.Includes1 offset = true → t.Includes2 offset 0 = false)) := by
  constructor
  · intro t offset size
    simp [BucketTreeState.Includes2, and_assoc]
  · intro t offset
    constructor
    · simp [BucketTreeState.Includes2]
    · intro _
      simp [BucketTreeState.Includes2]

/-- C10: `IsInitialized()` iff the stored node size is positive, `IsEmpty()`
iff the stored entry size is zero; the default-constructed tree is
uninitialized and empty. -/
theorem isInitialized_isEmpty_spec :
    (∀ t : BucketTreeState, t.IsInitialized = true ↔ 0 < t.node_size) ∧
    (∀ t : BucketTreeState, t.IsEmpty = true ↔ t.entry_size = 0) ∧
    BucketTreeState.default.IsInitialized = false ∧
    BucketTreeState.default.IsEmpty = true := by
  refine ⟨?_, ?_, rfl, rfl⟩
  · intro t
    exact decide_eq_true_iff
  · intro t
    exact decide_eq_true_iff

/-- C6: whenever the L2 tier exists and the L1 node count is below
`m_offset_count` (the `IsExistOffsetL2OnL1` case), `GetEntrySetIndex`
evaluates to `(offset_count - L1.count) + offset_count * node_index +
offset_index`. -/
theorem getEntrySetIndex_spec (t : BucketTreeState) (node_index offset_index : Int)
    (h : t.IsExistOffsetL2OnL1 = true) :
    t.GetEntrySetIndex node_index offset_index =
      (t.offset_count - t.l1_count) + t.offset_count * node_index + offset_index := rfl

/-- C6 witness: a state with `offset_count = 126`, `entry_set_count = 159`,
`l1_count = 2` (so `IsExistOffsetL2OnL1` holds), `node_index = 1`,
`offset_index = 3`. -/
theorem getEntrySetIndex_spec_witness :
    BucketTreeState.GetEntrySetIndex ⟨1024, 16, 10000, 126, 159, 0, 0, 2⟩ 1 3 =
      (126 - 2) + 126 * 1 + 3 :=
  getEntrySetIndex_spec ⟨1024, 16, 10000, 126, 159, 0, 0, 2⟩ 1 3 (by decide)

/-! ## `BucketTree::NodeBuffer` move construction (C8)

Pointers are modelled as `Option Nat` (`none` = `nullptr`). -/

/-- The two members of `NodeBuffer`: `IAllocator *m_allocator; void *m_header;`. -/
structure NodeBuffer where
  allocator : Option Nat
  header : Option Nat
  deriving DecidableEq, Repr

/-- The move constructor exactly as written in the source:
`NodeBuffer(NodeBuffer &&rhs) : m_allocator(rhs.m_allocator),
m_header(rhs.m_allocator) { rhs.m_allocator = nullptr; rhs.m_header = nullptr; }`
— note the member initializer of `m_header` reads `rhs.m_allocator`.
Returns (new buffer, moved-from buffer). -/
def NodeBuffer.moveCtor (rhs : NodeBuffer) : NodeBuffer × NodeBuffer :=
  (⟨rhs.allocator, rhs.allocator⟩, ⟨none, none⟩)

/-- The move assignment from the same class, which does transfer both members:
`m_allocator = rhs.m_allocator; m_header = rhs.m_header;` then nulls `rhs`. -/
def NodeBuffer.moveAssign (rhs : NodeBuffer) : NodeBuffer × NodeBuffer :=
  (⟨rhs.allocator, rhs.header⟩, ⟨none, none⟩)

/-- C8: evaluating the move constructor at a buffer whose allocator pointer
(`0x1`) differs from its header pointer (`0x2`): the new buffer's header comes
out as the old *allocator* pointer, not the old header pointer — unlike the
move assignment operator of the same class — while both source members are
nulled as the claim states. -/
theorem nodeBuffer_moveCtor_bug :
    (NodeBuffer.moveCtor ⟨some 1, some 2⟩).1 = ⟨some 1, some 1⟩ ∧
    (NodeBuffer.moveCtor ⟨some 1, some 2⟩).1.header ≠ (NodeBuffer.mk (some 1) (some 2)).header ∧
    (NodeBuffer.moveCtor ⟨some 1, some 2⟩).2 = ⟨none, none⟩ ∧
    (NodeBuffer.moveAssign ⟨some 1, some 2⟩).1 = ⟨some 1, some 2⟩ := by decide

/-! ## Struct layout (C7)

Field offsets computed by the standard-layout rules the packed on-disk format
relies on: each field is placed at the next multiple of its alignment, and
the struct size is the end of the last field rounded up to the maximal
alignment.  Fields are given as `(size, alignment)` pairs. -/

def alignUp (off align : Nat) : Nat := ((off + align - 1) / align) * align

def fieldOffsets : Nat → List (Nat × Nat) → List Nat
  | _, [] => []
  | cur, (sz, al) :: rest =>
    let o := alignUp cur al
    o :: fieldOffsets (o + sz) rest

def structEnd : Nat → List (Nat × Nat) → Nat
  | cur, [] => cur
  | cur, (sz, al) :: rest => structEnd (alignUp cur al + sz) rest

def structAlign (fields : List (Nat × Nat)) : Nat :=
  fields.foldr (fun f a => max f.2 a) 1

def structSize (fields : List (Nat × Nat)) : Nat :=
  alignUp (structEnd 0 fields) (structAlign fields)

/-- `NodeHeader { s32 index; s32 count; s64 offset; }`. -/
def nodeHeaderFields : List (Nat × Nat) := [(4, 4), (4, 4), (8, 8)]

/-- `Visitor::EntrySetHeader::Info { s32 index; s32 count; s64 end; s64 start; }`. -/
def entrySetInfoFields : List (Nat × Nat) := [(4, 4), (4, 4), (8, 8), (8, 8)]

/-- C7 counterexample: in the `EntrySetHeader` union, `Info::start` does NOT
occupy the same bytes as `NodeHeader::offset`: `start` sits at byte offset 16,
`offset` at byte offset 8 (which `Info::end` overlays). -/
theorem entrySetHeader_layout_counterexample :
    ¬((fieldOffsets 0 entrySetInfoFields).getD 3 0 =
      (fieldOffsets 0 nodeHeaderFields).getD 2 0) := by decide

/-- C7 (amended): `sizeof(NodeHeader) = 16` as static-asserted; under the
union overlay `Info::end` occupies exactly the bytes of `NodeHeader::offset`
(offset 8, size 8), so for a leaf the header's `offset` field is read back as
the entry set's exclusive `end`; and `Info::start` occupies bytes 16..23 —
the 8 bytes immediately after the `NodeHeader`, i.e. the leading virtual
offset of the set's first entry. -/
theorem entrySetHeader_layout :
    structSize nodeHeaderFields = 16 ∧
    structSize entrySetInfoFields = 24 ∧
    (fieldOffsets 0 entrySetInfoFields).getD 2 0 =
      (fieldOffsets 0 nodeHeaderFields).getD 2 0 ∧
    (fieldOffsets 0 nodeHeaderFields).getD 2 0 = 8 ∧
    (fieldOffsets 0 entrySetInfoFields).getD 3 0 = structSize nodeHeaderFields := by decide

/-- C9 witness: a tree covering `[0, 100)` includes offset 10 but rejects the
pair `(10, 0)`. -/
theorem includes_size_spec_witness :
    BucketTreeState.Includes1 ⟨1024, 16, 1, 126, 1, 0, 100, 1⟩ 10 = true ∧
    BucketTreeState.Includes2 ⟨1024, 16, 1, 126, 1, 0, 100, 1⟩ 10 0 = false :=
  ⟨by decide, (includes_size_spec.2 ⟨1024, 16, 1, 126, 1, 0, 100, 1⟩ 10).2 (by decide)⟩

/-! ## `Find` (C1)

`BucketTree::Find` is only declared in the header; its body is not part of the
repository sample.  The definitions below are therefore modelled from the
spec. -/

/-- The only failure the lookup itself produces (`fs::ResultOutOfRange`). -/
inductive FindError where
  | outOfRange
  deriving DecidableEq, Repr

/-- Modelled from the spec: the logical content of an initialized, non-empty
tree that `Find` consults — the flattened, virtual-offset-ordered sequence of
entry start offsets (each entry's leading 8 bytes, "monotonically increasing
within a set and across sets") together with the tree's exclusive
`end_offset` (the last leaf's trailing end).  `start_offset` is the first
entry's start (the L1 header offset). -/
structure TreeModel where
  starts : List Int
  endOff : Int
  deriving DecidableEq, Repr

/-- `GetStart()`: the first key. -/
def TreeModel.startOff (t : TreeModel) : Int := t.starts.headD 0

/-- `Includes(va)`: `start_offset ≤ va < end_offset`. -/
def TreeModel.includes (t : TreeModel) (va : Int) : Bool :=
  decide (t.startOff ≤ va) && decide (va < t.endOff)

/-- The invariants `Initialize` establishes for a non-empty tree: at least one
entry, strictly increasing entry starts, and the last entry's start below the
tree's exclusive end. -/
def TreeModel.wf (t : TreeModel) : Prop :=
  t.starts ≠ [] ∧ t.starts.Chain' (· < ·) ∧ t.starts.getLastD 0 < t.endOff

/-- Modelled from the spec: the "largest key not exceeding `va`" search the
two-tier descent performs, flattened over the ordered entry starts.  Returns
the index of the last start `≤ va` (0 when the list has fewer than two
entries). -/
def posOf (va : Int) : List Int → Nat
  | [] => 0
  | [_] => 0
  | _ :: y :: rest => if va < y then 0 else posOf va (y :: rest) + 1

/-- The exclusive upper bound of entry `i`'s half-open range: the next entry's
start, or the tree end for the last entry. -/
def nextBound (starts : List Int) (e : Int) (i : Nat) : Int :=
  if i + 1 < starts.length then starts.getD (i + 1) 0 else e

/-- Entry `i` exists and its half-open range `[start_i, next_i)` contains `va`. -/
def coversAt (starts : List Int) (e : Int) (i : Nat) (va : Int) : Prop :=
  i < starts.length ∧ starts.getD i 0 ≤ va ∧ va < nextBound starts e i

def TreeModel.covers (t : TreeModel) (i : Nat) (va : Int) : Prop :=
  coversAt t.starts t.endOff i va

instance (t : TreeModel) (i : Nat) (va : Int) : Decidable (t.covers i va) := by
  unfold TreeModel.covers coversAt
  infer_instance

/-- Modelled from the spec: `Find(visitor, virtual_address)` — fails with
`OutOfRange` when `Includes(virtual_address)` does not hold, otherwise
positions the visitor on the entry found by the largest-key-not-exceeding
descent.  The result is the index of that entry. -/
def TreeModel.find (t : TreeModel) (va : Int) : Except FindError Nat :=
  if t.includes va then .ok (posOf va t.starts) else .error .outOfRange

theorem nextBound_cons (x : Int) (l : List Int) (e : Int) (i : Nat) :
    nextBound (x :: l) e (i + 1) = nextBound l e i := by
  unfold nextBound
  by_cases h : i + 1 < l.length
  · rw [if_pos (by simp; omega), if_pos h, List.getD_cons_succ]
  · rw [if_neg (by simp; omega), if_neg h]

theorem posOf_covers (l : List Int) (e va : Int)
    (hne : l ≠ []) (hchain : l.Chain' (· < ·)) (hhead : l.headD 0 ≤ va)
    (hlt : va < e) :
    coversAt l e (posOf va l) va := by
  induction l with
  | nil => exact absurd rfl hne
  | cons x rest ih =>
    cases rest with
    | nil =>
      refine ⟨by simp [posOf], ?_, ?_⟩
      · simpa [posOf] using hhead
      · simpa [posOf, nextBound] using hlt
    | cons y rest2 =>
      by_cases hy : va < y
      · simp only [posOf, if_pos hy]
        refine ⟨by simp, by simpa using hhead, ?_⟩
        have h1 : nextBound (x :: y :: rest2) e 0 = y := by
          unfold nextBound
          rw [if_pos (by simp), List.getD_cons_succ, List.getD_cons_zero]
        rw [h1]
        exact hy
      · have hyle : y ≤ va := not_lt.mp hy
        have ihres := ih (by simp) hchain.tail (by simpa using hyle)
        obtain ⟨hlen, hle, hblt⟩ := ihres
        simp only [posOf, if_neg hy]
        refine ⟨by simp only [List.length_cons] at hlen ⊢; omega, ?_, ?_⟩
        · rw [List.getD_cons_succ]
          exact hle
        · rw [nextBound_cons]
          exact hblt

theorem covers_unique (l : List Int) (e va : Int) (hchain : l.Chain' (· < ·))
    (i j : Nat) (hi : coversAt l e i va) (hj : coversAt l e j va) : i = j := by
  have hpair : l.Pairwise (· < ·) := List.chain'_iff_pairwise.mp hchain
  have hmono : ∀ a b : Nat, a < b → b < l.length → l.getD a 0 < l.getD b 0 := by
    intro a b hab hb
    have ha : a < l.length := Nat.lt_trans hab hb
    have h := List.pairwise_iff_get.mp hpair ⟨a, ha⟩ ⟨b, hb⟩ (Fin.mk_lt_mk.mpr hab)
    rw [List.getD_eq_getElem _ _ ha, List.getD_eq_getElem _ _ hb]
    simpa using h
  have key : ∀ a b : Nat, a < b → coversAt l e a va → coversAt l e b va → False := by
    rintro a b hab ⟨_, _, ha_lt⟩ ⟨hb_len, hb_le, _⟩
    have ha1 : a + 1 < l.length := by omega
    rw [nextBound, if_pos ha1] at ha_lt
    have hstep : l.getD (a + 1) 0 ≤ l.getD b 0 := by
      rcases Nat.eq_or_lt_of_le (by omega : a + 1 ≤ b) with heq | hlt2
      · rw [heq]
      · exact le_of_lt (hmono _ _ hlt2 hb_len)
    omega
  rcases Nat.lt_trichotomy i j with h | h | h
  · exact absurd (key i j h hi hj) not_false
  · exact h
  · exact absurd (key j i h hj hi) not_false

/-- C1: on an initialized, non-empty tree, for every `va` with
`GetStart() ≤ va < GetEnd()` the lookup succeeds and yields the unique entry
whose half-open range contains `va`; for every `va` outside that interval it
fails with `OutOfRange`. -/
theorem find_spec (t : TreeModel) (hwf : t.wf) (va : Int) :
    (t.includes va = true →
      t.find va = .ok (posOf va t.starts) ∧
      t.covers (posOf va t.starts) va ∧
      ∀ j, t.covers j va → j = posOf va t.starts) ∧
    (t.includes va = false → t.find va = .error .outOfRange) := by
  constructor
  · intro hin
    have hrange : t.startOff ≤ va ∧ va < t.endOff := by
      simpa [TreeModel.includes] using hin
    have hcov := posOf_covers t.starts t.endOff va hwf.1 hwf.2.1 hrange.1 hrange.2
    refine ⟨by simp [TreeModel.find, hin], hcov, ?_⟩
    intro j hj
    exact covers_unique t.starts t.endOff va hwf.2.1 j (posOf va t.starts) hj hcov
  · intro hout
    simp [TreeModel.find, hout]

/-- C1 witness: the tree with entry starts `0, 100, 200` and end 300.
`Find(150)` lands on entry 1 (range `[100, 200)`), `Find(300)` fails. -/
theorem find_spec_witness :
    TreeModel.find ⟨[0, 100, 200], 300⟩ 150 = .ok 1 ∧
    TreeModel.covers ⟨[0, 100, 200], 300⟩ 1 150 ∧
    TreeModel.find ⟨[0, 100, 200], 300⟩ 300 = .error .outOfRange := by
  have hwf : TreeModel.wf ⟨[0, 100, 200], 300⟩ :=
    ⟨by decide, by norm_num [List.chain'_cons], by decide⟩
  have h1 := (find_spec ⟨[0, 100, 200], 300⟩ hwf 150).1 (by decide)
  have h2 := (find_spec ⟨[0, 100, 200], 300⟩ hwf 300).2 (by decide)
  exact ⟨h1.1.trans (congrArg Except.ok (by decide)), by decide, h2⟩

end BucketTreeVerify
